import Mathlib

/-!
Verification of the news-monitoring pipeline (`Monitoring-LLM-news-in-Darija`).

This file gives a shallow embedding of the parts of the repository that the
specification talks about and proves (or refutes) the specified properties:

* `src/services/gemini_service.py` — the model invoker `call_gemini`
  (retry loop with exponential backoff, JSON validation, markdown repair)
  and `_extract_json_from_markdown` (fenced-code-block extraction);
* `src/models.py` — the typed stage records and their pydantic field
  constraints;
* `src/utils.py` — `format_telegram_message`, `save_execution_history` and
  the bounded history file;
* `src/main.py` — the orchestrator `run_full_pipeline` (single-flight flag,
  sequential stages, terminal record, try/except/finally behaviour).

Python strings are modelled as `String`/`List Char`; Python exceptions are
modelled as the `.error` branch of `Except String α` (raising = returning
`.error`, `try/except` = matching on it); `json.loads` acceptance is
modelled by the executable JSON grammar checker `json_valid` below.
-/

/-! ## Python string helpers

`pyIsSpace` models the ASCII part of the Python `str.strip` / regex `\s`
whitespace set (space, tab, newline, carriage return, vertical tab, form
feed).  Exotic Unicode whitespace is not modelled; no claim depends on it. -/

def pyIsSpace (c : Char) : Bool :=
  c = ' ' || c = '\t' || c = '\n' || c = '\r' || c = '\x0b' || c = '\x0c'

/-- Remove the longest suffix whose characters satisfy `p`. -/
def dropTrailWhile (p : Char → Bool) (cs : List Char) : List Char :=
  (cs.reverse.dropWhile p).reverse

/-- Python `str.strip()` on a character list. -/
def pyStripList (cs : List Char) : List Char :=
  dropTrailWhile pyIsSpace (cs.dropWhile pyIsSpace)

/-- Python `str.strip()`. -/
def pyStrip (s : String) : String :=
  ⟨pyStripList s.data⟩

/-- Python `lst[-n:]`: the last `n` elements. -/
def pyLastN {α : Type} (n : Nat) (l : List α) : List α :=
  l.drop (l.length - n)

/-! ## `GeminiClient._extract_json_from_markdown` (src/services/gemini_service.py)

The Python code runs `re.findall(r"\x60\x60\x60(?:json)?\s*(.*?)\x60\x60\x60", text, re.DOTALL)`
and returns `matches[0].strip()` when a match exists, else `text.strip()`.
`findFirstBlock` computes the capture group of the first regex match:
scan for the first occurrence of three backticks that is followed (after an
optional greedy `json` tag and greedy whitespace) by a closing three-backtick
run; the capture is the lazy span before that closing run.  When an opening
run has no closing run the regex moves on — positions inside the opening run
cannot start a match (their closing run would also close the earlier one), so
scanning resumes after the three backticks. -/

/-- Find the first occurrence of three consecutive backticks; return the
characters before it and the characters after it. -/
def splitAtFence : List Char → Option (List Char × List Char)
  | '\x60' :: '\x60' :: '\x60' :: rest => some ([], rest)
  | c :: rest => (splitAtFence rest).map fun p => (c :: p.1, p.2)
  | [] => none

/-- The greedy optional `(?:json)?` tag of the regex, directly after the opening
backticks. -/
def dropJsonTag : List Char → List Char
  | 'j' :: 's' :: 'o' :: 'n' :: rest => rest
  | cs => cs

/-- The capture group of the first `(?:json)?\s*(.*?)` fenced-block match. -/
def findFirstBlock : List Char → Option (List Char)
  | '\x60' :: '\x60' :: '\x60' :: rest =>
    match splitAtFence ((dropJsonTag rest).dropWhile pyIsSpace) with
    | some (body, _) => some body
    | none => findFirstBlock rest
  | _ :: rest => findFirstBlock rest
  | [] => none

/-- `GeminiClient._extract_json_from_markdown`. -/
def extract_json_from_markdown (text : String) : String :=
  match findFirstBlock text.data with
  | some body => pyStrip ⟨body⟩
  | none => pyStrip text

/-! ## `json.loads` acceptance (`json_valid`)

An executable check that a string is a valid JSON document as accepted by
the Python `json.loads` with default options: RFC 8259 grammar plus the
`NaN` / `Infinity` / `-Infinity` constants, ASCII whitespace
(space, tab, newline, carriage return) between tokens, strict strings
(unescaped control characters below 0x20 rejected).  Containers are parsed
with a fuel argument bounded by the input length. -/

def jsonWs (c : Char) : Bool :=
  c = ' ' || c = '\t' || c = '\n' || c = '\r'

def skipWs (cs : List Char) : List Char :=
  cs.dropWhile jsonWs

def isHexDigitChar (c : Char) : Bool :=
  c.isDigit || ('a' ≤ c && c ≤ 'f') || ('A' ≤ c && c ≤ 'F')

/-- Parse the body of a JSON string after the opening quote, returning the
input after the closing quote. -/
def parseStr : List Char → Option (List Char)
  | [] => none
  | '"' :: rest => some rest
  | '\\' :: 'u' :: h1 :: h2 :: h3 :: h4 :: rest =>
    if isHexDigitChar h1 && isHexDigitChar h2 && isHexDigitChar h3 && isHexDigitChar h4 then
      parseStr rest
    else none
  | '\\' :: e :: rest =>
    if e = '"' || e = '\\' || e = '/' || e = 'b' || e = 'f' || e = 'n' || e = 'r' || e = 't' then
      parseStr rest
    else none
  | c :: rest => if c.toNat < 32 then none else parseStr rest

/-- One or more ASCII digits, maximal munch. -/
def parseDigitsPlus : List Char → Option (List Char)
  | c :: rest => if c.isDigit then some (rest.dropWhile Char.isDigit) else none
  | [] => none

/-- `0 | [1-9][0-9]*`. -/
def parseIntPart : List Char → Option (List Char)
  | c :: rest =>
    if c = '0' then some rest
    else if c.isDigit then some (rest.dropWhile Char.isDigit)
    else none
  | [] => none

/-- Optional `.[0-9]+`. -/
def parseFrac : List Char → Option (List Char)
  | '.' :: rest => parseDigitsPlus rest
  | cs => some cs

/-- Optional `[eE][+-]?[0-9]+`. -/
def parseExp : List Char → Option (List Char)
  | c :: rest =>
    if c = 'e' || c = 'E' then
      match rest with
      | s :: rest2 => if s = '+' || s = '-' then parseDigitsPlus rest2 else parseDigitsPlus rest
      | [] => none
    else some (c :: rest)
  | [] => some []

/-- JSON number, with optional leading minus sign. -/
def parseNumber (cs : List Char) : Option (List Char) :=
  let cs0 := match cs with | '-' :: rest => rest | _ => cs
  match parseIntPart cs0 with
  | none => none
  | some cs1 =>
    match parseFrac cs1 with
    | none => none
    | some cs2 => parseExp cs2

/-- Match a literal character sequence. -/
def dropLit : List Char → List Char → Option (List Char)
  | [], cs => some cs
  | p :: ps, c :: cs => if c = p then dropLit ps cs else none
  | _ :: _, [] => none

mutual

/-- Parse a single JSON value (no leading whitespace). -/
def parseValue : Nat → List Char → Option (List Char)
  | 0, _ => none
  | fuel + 1, cs =>
    match cs with
    | [] => none
    | c :: rest =>
      if c = '"' then parseStr rest
      else if c = '\x7b' then
        match skipWs rest with
        | '\x7d' :: rest2 => some rest2
        | cs1 => parseMembers fuel cs1
      else if c = '[' then
        match skipWs rest with
        | ']' :: rest2 => some rest2
        | cs1 => parseElems fuel cs1
      else if c = 't' then dropLit ['r', 'u', 'e'] rest
      else if c = 'f' then dropLit ['a', 'l', 's', 'e'] rest
      else if c = 'n' then dropLit ['u', 'l', 'l'] rest
      else if c = 'N' then dropLit ['a', 'N'] rest
      else if c = 'I' then dropLit ['n', 'f', 'i', 'n', 'i', 't', 'y'] rest
      else if c = '-' then
        match rest with
        | 'I' :: rest2 => dropLit ['n', 'f', 'i', 'n', 'i', 't', 'y'] rest2
        | _ => parseNumber cs
      else parseNumber cs

/-- Parse `string : value (, string : value)* }` inside an object (leading
whitespace already skipped, object known to be non-empty). -/
def parseMembers : Nat → List Char → Option (List Char)
  | 0, _ => none
  | fuel + 1, cs =>
    match cs with
    | '"' :: rest =>
      match parseStr rest with
      | none => none
      | some cs1 =>
        match skipWs cs1 with
        | ':' :: rest2 =>
          match parseValue fuel (skipWs rest2) with
          | none => none
          | some cs3 =>
            match skipWs cs3 with
            | ',' :: rest3 => parseMembers fuel (skipWs rest3)
            | '\x7d' :: rest3 => some rest3
            | _ => none
        | _ => none
    | _ => none

/-- Parse `value (, value)* ]` inside an array (leading whitespace already
skipped, array known to be non-empty). -/
def parseElems : Nat → List Char → Option (List Char)
  | 0, _ => none
  | fuel + 1, cs =>
    match parseValue fuel cs with
    | none => none
    | some cs1 =>
      match skipWs cs1 with
      | ',' :: rest2 => parseElems fuel (skipWs rest2)
      | ']' :: rest2 => some rest2
      | _ => none

end

/-- Python `json.loads(s)` succeeds. -/
def json_valid (s : String) : Bool :=
  match parseValue (s.data.length + 1) (skipWs s.data) with
  | some rest => (skipWs rest).isEmpty
  | none => false

/-! ## Data model (src/models.py)

The pydantic records.  Scores and ranks are `Int` (pydantic `int` fields);
the `Field(ge/le)` range constraints of `models.py` are the `valid`
predicates below — constructing a record from parsed JSON succeeds exactly
when they hold. -/

structure Article where
  title : String
  url : String
  source : String
  published_at : String
  summary : String
  category : String
  technical_relevance_score : Int
deriving DecidableEq

structure Agent1Output where
  articles : List Article
  processed_at : String
deriving DecidableEq

structure Idea where
  title : String
  description : String
  source_article_url : String
  innovation_type : String
  impact_score : Int
  technical_difficulty : Int
  use_cases : List String
  why_interesting : String
deriving DecidableEq

structure Agent2Output where
  ideas : List Idea
  total_extracted : Int
deriving DecidableEq

structure TopIdea where
  rank : Int
  idea_title : String
  article_url : String
  impact_score : Int
  why_in_top_5 : String
  next_step : String
deriving DecidableEq

structure Agent3Output where
  top_5_ideas : List TopIdea
  reflection : String
deriving DecidableEq

structure ExplainedIdea where
  rank : Int
  title_english : String
  darija_explanation : String
  source_url : String
deriving DecidableEq

structure Agent4Output where
  top_5_explained : List ExplainedIdea
deriving DecidableEq

/-- Field constraints of `TopIdea` in models.py:
`rank : Field(ge=1, le=5)`, `impact_score : Field(ge=0, le=10)`. -/
def TopIdea.valid (t : TopIdea) : Bool :=
  1 ≤ t.rank && t.rank ≤ 5 && 0 ≤ t.impact_score && t.impact_score ≤ 10

/-- Pydantic validation of `Agent3Output`: per-entry field constraints only.
`models.py` places no length constraint on `top_5_ideas`. -/
def Agent3Output.valid (o : Agent3Output) : Bool :=
  o.top_5_ideas.all TopIdea.valid

/-- The `Agent3Output(**response_data)` construction in
`agents/reflection_agent.py` (`validate_and_reflect`): pydantic accepts the
record iff its field constraints hold; no count check is performed. -/
def agent3_validate (o : Agent3Output) : Except String Agent3Output :=
  if o.valid then .ok o else .error "Agent 3 failed: validation error"

/-- Field constraints of `ExplainedIdea` in models.py: `rank : Field(ge=1, le=5)`. -/
def ExplainedIdea.valid (e : ExplainedIdea) : Bool :=
  1 ≤ e.rank && e.rank ≤ 5

def Agent4Output.valid (o : Agent4Output) : Bool :=
  o.top_5_explained.all ExplainedIdea.valid

/-- `PipelineExecution` (models.py) — the run record of the orchestrator. -/
structure PipelineExecution where
  execution_id : String
  started_at : String
  completed_at : Option String := none
  status : String
  error_message : Option String := none
  articles_fetched : Nat := 0
  ideas_extracted : Nat := 0
  telegram_sent : Bool := false
deriving DecidableEq

/-! ## `GeminiClient.call_gemini` (src/services/gemini_service.py)

The backend (`model.generate_content` + `response.text`) is modelled as a
function from the attempt index to either a response text or a raised
message of the raised exception.  The result records the returned/raised value, the
total seconds slept in backoff, and how many backend calls were made. -/

instance {ε α : Type} [DecidableEq ε] [DecidableEq α] : DecidableEq (Except ε α) := fun x y =>
  match x, y with
  | .ok a, .ok b => if h : a = b then .isTrue (by rw [h]) else .isFalse (by simp [h])
  | .error a, .error b => if h : a = b then .isTrue (by rw [h]) else .isFalse (by simp [h])
  | .ok _, .error _ => .isFalse (by simp)
  | .error _, .ok _ => .isFalse (by simp)

structure GeminiResult where
  result : Except String String
  slept : Nat
  calls : Nat
deriving DecidableEq

/-- `config.MAX_RETRIES` (src/config.py). -/
def MAX_RETRIES : Nat := 3

/-- The message of the exception raised after exhausting all retries. -/
def gemini_fail_msg (max_retries : Nat) (last_error : Option String) : String :=
  "Gemini API call failed after " ++ toString max_retries ++ " attempts: " ++
    (match last_error with | some e => e | none => "None")

/-- The `for attempt in range(max_retries)` loop of `call_gemini`.
`remaining` is the number of loop iterations left (`max_retries - attempt`);
the recursion consumes it while `attempt` mirrors the Python loop variable. -/
def call_gemini_go (response_format : String) (backend : Nat → Except String String)
    (max_retries : Nat) : Nat → Nat → Nat → Nat → Option String → GeminiResult
  | 0, _, slept, calls, last_error =>
    ⟨.error (gemini_fail_msg max_retries last_error), slept, calls⟩
  | remaining + 1, attempt, slept, calls, _ =>
    match backend attempt with
    | .ok text =>
      if response_format = "json" then
        if json_valid text then ⟨.ok text, slept, calls + 1⟩
        else
          let text2 := extract_json_from_markdown text
          if json_valid text2 then ⟨.ok text2, slept, calls + 1⟩
          else if attempt < max_retries - 1 then
            call_gemini_go response_format backend max_retries remaining (attempt + 1)
              (slept + 2 ^ attempt) (calls + 1) (some "Failed to parse JSON response")
          else ⟨.ok text2, slept, calls + 1⟩
      else ⟨.ok text, slept, calls + 1⟩
    | .error e =>
      if attempt < max_retries - 1 then
        call_gemini_go response_format backend max_retries remaining (attempt + 1)
          (slept + 2 ^ attempt) (calls + 1) (some e)
      else
        call_gemini_go response_format backend max_retries remaining (attempt + 1)
          slept (calls + 1) (some e)

/-- `GeminiClient.call_gemini(prompt, response_format, temperature, max_retries)`.
The prompt and temperature only shape the backend call and are absorbed into
`backend`. -/
def call_gemini (response_format : String) (backend : Nat → Except String String)
    (max_retries : Nat) : GeminiResult :=
  call_gemini_go response_format backend max_retries max_retries 0 0 0 none

/-! ## `format_telegram_message` (src/utils.py)

`datetime.now().strftime(...)` is nondeterministic and is passed in as
`nowFmt`. -/

def rankEmojis : List String := ["🥇", "🥈", "🥉", "4️⃣", "5️⃣"]

/-- The four message lines appended for one idea.  The emoji lookup
`rankEmojis[rank - 1]` is faithful for the validated range `1 ≤ rank ≤ 5`
(outside it Python would raise or wrap a negative index). -/
def ideaBlock (idea : ExplainedIdea) : List String :=
  [rankEmojis.getD (idea.rank - 1).toNat "" ++ " *" ++ idea.title_english ++ "*",
   idea.darija_explanation,
   "🔗 [Source](" ++ idea.source_url ++ ")",
   ""]

def telegramHeader : List String :=
  ["🚀 *TOP 5 IDÉES LLM/AI - AUJOURD\x27HUI*", "",
   "Voici les 5 idées les plus intéressantes du moment:", ""]

def telegramFooter (nowFmt : String) : List String :=
  ["---", "💡 *Veille LLM Agent System*", "📅 " ++ nowFmt]

/-- `format_telegram_message(top_ideas)`. -/
def format_telegram_message (nowFmt : String) (top_ideas : Agent4Output) : String :=
  String.intercalate "\n"
    (telegramHeader ++ (top_ideas.top_5_explained.map ideaBlock).flatten ++ telegramFooter nowFmt)

/-! ## `save_execution_history` (src/utils.py)

The history file is modelled as missing, unreadable/corrupt, or a readable
list of records; a possible write failure is a flag of the environment.
Raising is the `.error` branch; the own `try/except` of the function wraps
`save_inner` and swallows every exception. -/

inductive HistFile
  | missing
  | corrupt
  | good (entries : List PipelineExecution)
deriving DecidableEq

structure FsEnv where
  file : HistFile
  writeFails : Bool
deriving DecidableEq

/-- The body of the `try:` block of `save_execution_history` — load (raising on a
corrupt file), append, trim to the last 50, write (raising on I/O failure). -/
def save_inner (execution : PipelineExecution) (fs : FsEnv) : Except String FsEnv :=
  match fs.file with
  | .corrupt => .error "Failed to load execution history"
  | f =>
    let history := match f with | .good l => l | _ => ([] : List PipelineExecution)
    let history2 := pyLastN 50 (history ++ [execution])
    if fs.writeFails then .error "Failed to write execution history"
    else .ok ⟨.good history2, fs.writeFails⟩

/-- `save_execution_history(execution)`: the `try/except Exception` swallows
any failure of the body (logging it) and returns normally. -/
def save_execution_history (execution : PipelineExecution) (fs : FsEnv) : Except String FsEnv :=
  match save_inner execution fs with
  | .ok fs2 => .ok fs2
  | .error _ => .ok fs

/-- The view the orchestrator has of the save call: the resulting file system
(`save_execution_history` never returns `.error`, so the fallback arm is
unreachable). -/
def run_save (execution : PipelineExecution) (fs : FsEnv) : FsEnv :=
  match save_execution_history execution fs with
  | .ok fs2 => fs2
  | .error _ => fs

/-! ## `run_full_pipeline` (src/main.py)

The outcome of each awaited step (fetch, the four agents, the Telegram
send) is supplied by a `PipelineEnv`: a step that raises is an `.error`
with the message of the exception (`str(e)`).  `telegram_service.send_message`
catches all its exceptions and returns a `Bool`, so `send` is a plain
function of the message.  Timestamps (`get_current_timestamp`,
`datetime.now()`) are nondeterministic inputs.  The best-effort failure
notification (`except: pass`) has no observable effect on the modelled
state and is elided. -/

structure PipelineEnv where
  execId : String
  startTime : String
  endTime : String
  nowFmt : String
  fetch : Except String Nat
  agent1 : Except String Agent1Output
  agent2 : Except String Agent2Output
  agent3 : Except String Agent3Output
  agent4 : Except String Agent4Output
  send : String → Bool

/-- What the `try`/`except` part of an accepted run produces: the terminal
`PipelineExecution` record, the outcome of the function (a returned record or a
re-raised exception), and the message handed to the Telegram send, if any. -/
structure BodyResult where
  record : PipelineExecution
  result : Except String PipelineExecution
  sent : Option String
deriving DecidableEq

/-- The `except Exception` handler of `run_full_pipeline`: mark the record
failed with the error message, stamp completion, then re-`raise`. -/
def failBody (env : PipelineEnv) (ex : PipelineExecution) (e : String) : BodyResult :=
  ⟨{ ex with status := "failed", error_message := some e, completed_at := some env.endTime },
   .error e, none⟩

/-- The `try:` block of an accepted `run_full_pipeline` invocation:
fetch → agent 1 → agent 2 → agent 3 → agent 4 → format + send, with each
exception routed through the handler. -/
def pipeline_body (env : PipelineEnv) : BodyResult :=
  let ex0 : PipelineExecution :=
    { execution_id := env.execId, started_at := env.startTime, status := "running" }
  match env.fetch with
  | .error e => failBody env ex0 e
  | .ok nArticles =>
    let ex1 := { ex0 with articles_fetched := nArticles }
    match env.agent1 with
    | .error e => failBody env ex1 e
    | .ok _ =>
      match env.agent2 with
      | .error e => failBody env ex1 e
      | .ok a2 =>
        let ex2 := { ex1 with ideas_extracted := a2.ideas.length }
        match env.agent3 with
        | .error e => failBody env ex2 e
        | .ok _ =>
          match env.agent4 with
          | .error e => failBody env ex2 e
          | .ok a4 =>
            let msg := format_telegram_message env.nowFmt a4
            let exDone := { ex2 with
              telegram_sent := env.send msg
              status := "completed"
              completed_at := some env.endTime }
            ⟨exDone, .ok exDone, some msg⟩

/-- The process state touched by the orchestrator: the module-global
single-flight flag `pipeline_running` and the history file. -/
structure AppState where
  pipeline_running : Bool
  fs : FsEnv
deriving DecidableEq

structure RunResult where
  result : Except String PipelineExecution
  state : AppState
  sent : Option String

/-- `run_full_pipeline()`: reject when the single-flight flag is set (before
any record is created); otherwise run the body, and — as the `finally:`
clause, on every exit path — clear the flag and save the record. -/
def run_full_pipeline (env : PipelineEnv) (s : AppState) : RunResult :=
  if s.pipeline_running then
    ⟨.error "Pipeline is already running", s, none⟩
  else
    let b := pipeline_body env
    ⟨b.result, ⟨false, run_save b.record s.fs⟩, b.sent⟩

/-! ## Lemma library for the markdown JSON repair

`bt3` is the three-backtick fence; `hasTriple` decides whether a character
list contains it as a substring.  The lemmas characterise `splitAtFence` and
`findFirstBlock` in terms of append decompositions, which is what the C7 and
C8 claims need. -/

def bt3 : List Char := ['\x60', '\x60', '\x60']

def hasTriple : List Char → Bool
  | '\x60' :: '\x60' :: '\x60' :: _ => true
  | _ :: rest => hasTriple rest
  | [] => false

theorem hasTriple_cons (c : Char) (rest : List Char)
    (hne : ∀ rest2 : List Char, c = '\x60' → rest = '\x60' :: '\x60' :: rest2 → False) :
    hasTriple (c :: rest) = hasTriple rest := by
  rw [hasTriple.eq_def]
  split
  · next r heq =>
    exfalso
    injection heq with h1 h2
    exact hne r h1 h2
  · next c2 r heq =>
    injection heq with h1 h2
    rw [h2]
  · next heq => exact absurd heq (by simp)

theorem hasTriple_append_bt3 (x y : List Char) : hasTriple (x ++ bt3 ++ y) = true := by
  induction x with
  | nil => rfl
  | cons c rest ih =>
    rw [List.cons_append, hasTriple.eq_def]
    split
    · rfl
    · next c2 r heq =>
      injection heq with h1 h2
      rw [← h2]; exact ih
    · next heq => exact absurd heq (by simp)

theorem hasTriple_decomp (l : List Char) (h : hasTriple l = true) :
    ∃ x y, l = x ++ bt3 ++ y := by
  induction l using hasTriple.induct with
  | case1 rest => exact ⟨[], rest, rfl⟩
  | case2 c rest hne ih =>
    rw [hasTriple_cons c rest hne] at h
    obtain ⟨x, y, hxy⟩ := ih h
    exact ⟨c :: x, y, by rw [hxy]; rfl⟩
  | case3 => exact absurd h (by simp [hasTriple])

theorem hasTriple_cons_ne (c : Char) (rest : List Char) (hc : c ≠ '\x60') :
    hasTriple (c :: rest) = hasTriple rest :=
  hasTriple_cons c rest (fun _ h _ => hc h)

theorem splitAtFence_cons (c : Char) (rest : List Char)
    (hne : ∀ rest2 : List Char, c = '\x60' → rest = '\x60' :: '\x60' :: rest2 → False) :
    splitAtFence (c :: rest) = (splitAtFence rest).map fun p => (c :: p.1, p.2) := by
  rw [splitAtFence.eq_def]
  split
  · next r heq =>
    exfalso
    injection heq with h1 h2
    exact hne r h1 h2
  · next c2 r hcond heq =>
    injection heq with h1 h2
    rw [h1, h2]
  · next heq => exact absurd heq (by simp)

theorem splitAtFence_eq (cs : List Char) :
    ∀ b a, splitAtFence cs = some (b, a) → cs = b ++ bt3 ++ a ∧ hasTriple b = false := by
  induction cs using splitAtFence.induct with
  | case1 rest =>
    intro b a h
    have h2 : some (([] : List Char), rest) = some (b, a) := h
    obtain ⟨hb, ha⟩ : ([] : List Char) = b ∧ rest = a := by
      constructor <;>
        [exact congrArg Prod.fst (Option.some.inj h2); exact congrArg Prod.snd (Option.some.inj h2)]
    subst hb; subst ha
    exact ⟨rfl, rfl⟩
  | case2 c rest hne ih =>
    intro b a h
    rw [splitAtFence_cons c rest hne] at h
    cases hs : splitAtFence rest with
    | none => rw [hs] at h; exact absurd h (by simp)
    | some pa =>
      obtain ⟨b', a'⟩ := pa
      rw [hs] at h
      have h3 : some (c :: b', a') = some (b, a) := h
      obtain ⟨hb, ha⟩ : c :: b' = b ∧ a' = a := by
        constructor <;>
          [exact congrArg Prod.fst (Option.some.inj h3); exact congrArg Prod.snd (Option.some.inj h3)]
      rw [← hb, ← ha]
      obtain ⟨hdec, htri⟩ := ih b' a' hs
      constructor
      · rw [hdec]; rfl
      · rw [hasTriple_cons c b' ?hne2]
        · exact htri
        · intro r2 hc hb'
          apply hne (b'.drop 2 ++ bt3 ++ a') hc
          rw [hdec, hb']
          rfl
  | case3 =>
    intro b a h
    exact absurd h (by simp [splitAtFence])

theorem splitAtFence_isSome (cs : List Char) : (splitAtFence cs).isSome = hasTriple cs := by
  induction cs using splitAtFence.induct with
  | case1 rest => rfl
  | case2 c rest hne ih =>
    rw [splitAtFence_cons c rest hne, hasTriple_cons c rest hne, ← ih]
    cases splitAtFence rest <;> rfl
  | case3 => rfl

theorem splitAtFence_append (xs ys : List Char) (h : '\x60' ∉ xs) :
    splitAtFence (xs ++ bt3 ++ ys) = some (xs, ys) := by
  induction xs with
  | nil => rfl
  | cons c rest ih =>
    have hc : c ≠ '\x60' := fun hh => h (hh ▸ List.mem_cons_self c rest)
    have ih2 := ih (fun hm => h (List.mem_cons_of_mem c hm))
    simp only [List.cons_append, List.append_assoc] at ih2 ⊢
    rw [splitAtFence_cons c _ (fun r2 hcc _ => hc hcc), ih2]
    rfl

theorem dropJsonTag_exists (l : List Char) :
    ∃ d, l = d ++ dropJsonTag l ∧ '\x60' ∉ d := by
  rw [dropJsonTag.eq_def]
  split
  · next rest => exact ⟨['j', 's', 'o', 'n'], rfl, by decide⟩
  · exact ⟨[], rfl, by simp⟩

theorem hasTriple_dropJsonTag (l : List Char) :
    hasTriple (dropJsonTag l) = hasTriple l := by
  rw [dropJsonTag.eq_def]
  split
  · next rest =>
    rw [hasTriple_cons_ne _ _ (by decide), hasTriple_cons_ne _ _ (by decide),
      hasTriple_cons_ne _ _ (by decide), hasTriple_cons_ne _ _ (by decide)]
  · rfl

theorem pyIsSpace_ne_bt (c : Char) (h : pyIsSpace c = true) : c ≠ '\x60' := by
  intro heq
  rw [heq] at h
  exact absurd h (by decide)

theorem hasTriple_dropWhile_ws (l : List Char) :
    hasTriple (l.dropWhile pyIsSpace) = hasTriple l := by
  induction l with
  | nil => rfl
  | cons c rest ih =>
    rw [List.dropWhile_cons]
    by_cases hc : pyIsSpace c
    · rw [if_pos hc, ih, hasTriple_cons_ne c rest (pyIsSpace_ne_bt c hc)]
    · rw [if_neg hc]

theorem findFirstBlock_fence (rest : List Char) :
    findFirstBlock ('\x60' :: '\x60' :: '\x60' :: rest) =
      match splitAtFence ((dropJsonTag rest).dropWhile pyIsSpace) with
      | some (body, _) => some body
      | none => findFirstBlock rest := rfl

theorem findFirstBlock_cons (c : Char) (rest : List Char)
    (hne : ∀ rest2 : List Char, c = '\x60' → rest = '\x60' :: '\x60' :: rest2 → False) :
    findFirstBlock (c :: rest) = findFirstBlock rest := by
  rw [findFirstBlock.eq_def]
  split
  · next r heq =>
    exfalso
    injection heq with h1 h2
    exact hne r h1 h2
  · next c2 r hcond heq =>
    injection heq with h1 h2
    rw [h2]
  · next heq => exact absurd heq (by simp)

theorem findFirstBlock_none (l : List Char) (h : hasTriple l = false) :
    findFirstBlock l = none := by
  induction l using findFirstBlock.induct with
  | case1 rest b2 snd hsp =>
    have h2 : hasTriple ('\x60' :: '\x60' :: '\x60' :: rest) = true := hasTriple_append_bt3 [] rest
    rw [h] at h2
    exact absurd h2 (by decide)
  | case2 rest hsp ih =>
    have h2 : hasTriple ('\x60' :: '\x60' :: '\x60' :: rest) = true := hasTriple_append_bt3 [] rest
    rw [h] at h2
    exact absurd h2 (by decide)
  | case3 c rest hne ih =>
    rw [hasTriple_cons c rest hne] at h
    rw [findFirstBlock_cons c rest hne]
    exact ih h
  | case4 => rfl

theorem findFirstBlock_body (l : List Char) :
    ∀ body, findFirstBlock l = some body → hasTriple body = false := by
  induction l using findFirstBlock.induct with
  | case1 rest b2 snd hsp =>
    intro body h
    rw [findFirstBlock_fence, hsp] at h
    have hb := Option.some.inj h
    obtain ⟨_, htri⟩ := splitAtFence_eq _ b2 snd hsp
    rw [← hb]
    exact htri
  | case2 rest hsp ih =>
    intro body h
    rw [findFirstBlock_fence, hsp] at h
    exact ih body h
  | case3 c rest hne ih =>
    intro body h
    rw [findFirstBlock_cons c rest hne] at h
    exact ih body h
  | case4 =>
    intro body h
    exact absurd h (by simp [findFirstBlock])

theorem findFirstBlock_decomp (l : List Char) :
    ∀ body, findFirstBlock l = some body → ∃ x y z, l = x ++ bt3 ++ y ++ bt3 ++ z := by
  induction l using findFirstBlock.induct with
  | case1 rest b2 snd hsp =>
    intro body h
    obtain ⟨hdec, _⟩ := splitAtFence_eq _ b2 snd hsp
    obtain ⟨d, hd, _⟩ := dropJsonTag_exists rest
    refine ⟨[], d ++ (dropJsonTag rest).takeWhile pyIsSpace ++ b2, snd, ?_⟩
    have hrest : rest = d ++ ((dropJsonTag rest).takeWhile pyIsSpace ++ (b2 ++ bt3 ++ snd)) := by
      conv_lhs => rw [hd]
      rw [← hdec, List.takeWhile_append_dropWhile]
    show '\x60' :: '\x60' :: '\x60' :: rest = _
    conv_lhs => rw [hrest]
    simp [List.append_assoc, bt3]
  | case2 rest hsp ih =>
    intro body h
    rw [findFirstBlock_fence, hsp] at h
    obtain ⟨x, y, z, hxyz⟩ := ih body h
    refine ⟨'\x60' :: '\x60' :: '\x60' :: x, y, z, ?_⟩
    show '\x60' :: '\x60' :: '\x60' :: rest = _
    rw [hxyz]
    simp [List.append_assoc]
  | case3 c rest hne ih =>
    intro body h
    rw [findFirstBlock_cons c rest hne] at h
    obtain ⟨x, y, z, hxyz⟩ := ih body h
    exact ⟨c :: x, y, z, by rw [hxyz]; simp⟩
  | case4 =>
    intro body h
    exact absurd h (by simp [findFirstBlock])

theorem findFirstBlock_isSome (x y z : List Char) :
    (findFirstBlock (x ++ bt3 ++ y ++ bt3 ++ z)).isSome = true := by
  induction x with
  | nil =>
    show (findFirstBlock ('\x60' :: '\x60' :: '\x60' :: (y ++ bt3 ++ z))).isSome = true
    rw [findFirstBlock_fence]
    have h2 : (splitAtFence ((dropJsonTag (y ++ bt3 ++ z)).dropWhile pyIsSpace)).isSome = true := by
      rw [splitAtFence_isSome, hasTriple_dropWhile_ws, hasTriple_dropJsonTag]
      exact hasTriple_append_bt3 y z
    cases hsp : splitAtFence ((dropJsonTag (y ++ bt3 ++ z)).dropWhile pyIsSpace) with
    | none => rw [hsp] at h2; exact absurd h2 (by simp)
    | some pa => obtain ⟨b2, a2⟩ := pa; rfl
  | cons c rest ih =>
    have hR : (c :: rest) ++ bt3 ++ y ++ bt3 ++ z = c :: (rest ++ bt3 ++ y ++ bt3 ++ z) := by
      simp [List.append_assoc]
    rw [hR]
    by_cases hp : c = '\x60' ∧ (rest ++ bt3 ++ y ++ bt3 ++ z).take 2 = ['\x60', '\x60']
    · obtain ⟨hc, htake⟩ := hp
      have hsplit : rest ++ bt3 ++ y ++ bt3 ++ z =
          '\x60' :: '\x60' :: (rest ++ bt3 ++ y ++ bt3 ++ z).drop 2 := by
        conv_lhs => rw [← List.take_append_drop 2 (rest ++ bt3 ++ y ++ bt3 ++ z)]
        rw [htake]
        rfl
      rw [hc, hsplit]
      rw [findFirstBlock_fence]
      have hA : 2 ≤ (rest ++ bt3 ++ y).length := by simp [bt3]; omega
      have hdrop : (rest ++ bt3 ++ y ++ bt3 ++ z).drop 2 =
          (rest ++ bt3 ++ y).drop 2 ++ bt3 ++ z := by
        rw [show rest ++ bt3 ++ y ++ bt3 ++ z = (rest ++ bt3 ++ y) ++ (bt3 ++ z) by
          simp [List.append_assoc]]
        rw [List.drop_append_of_le_length hA]
        simp [List.append_assoc]
      have h2 : (splitAtFence ((dropJsonTag ((rest ++ bt3 ++ y ++ bt3 ++ z).drop 2)).dropWhile
          pyIsSpace)).isSome = true := by
        rw [splitAtFence_isSome, hasTriple_dropWhile_ws, hasTriple_dropJsonTag, hdrop]
        exact hasTriple_append_bt3 _ _
      cases hsp : splitAtFence ((dropJsonTag ((rest ++ bt3 ++ y ++ bt3 ++ z).drop 2)).dropWhile
          pyIsSpace) with
      | none => rw [hsp] at h2; exact absurd h2 (by simp)
      | some pa => obtain ⟨b2, a2⟩ := pa; rfl
    · have hne : ∀ rest2 : List Char, c = '\x60' →
          rest ++ bt3 ++ y ++ bt3 ++ z = '\x60' :: '\x60' :: rest2 → False := by
        intro r2 hc hr
        exact hp ⟨hc, by rw [hr]; rfl⟩
      rw [findFirstBlock_cons c _ hne]
      exact ih

/-! ## Lemma library for `str.strip()` -/

theorem dropWhile_idem (p : Char → Bool) (l : List Char) :
    (l.dropWhile p).dropWhile p = l.dropWhile p := by
  induction l with
  | nil => rfl
  | cons c rest ih =>
    rw [List.dropWhile_cons]
    by_cases hc : p c
    · rw [if_pos hc]; exact ih
    · rw [if_neg hc, List.dropWhile_cons, if_neg hc]

theorem dropWhile_head_false (p : Char → Bool) (l : List Char) (c : Char) (t : List Char)
    (h : l.dropWhile p = c :: t) : p c = false := by
  induction l with
  | nil => exact absurd h (by simp)
  | cons a rest ih =>
    rw [List.dropWhile_cons] at h
    by_cases ha : p a
    · rw [if_pos ha] at h; exact ih h
    · rw [if_neg ha] at h
      injection h with h1 _
      rw [← h1]
      revert ha
      cases p a <;> simp

theorem dropTrailWhile_exists (p : Char → Bool) (l : List Char) :
    ∃ b, l = dropTrailWhile p l ++ b := by
  refine ⟨(l.reverse.takeWhile p).reverse, ?_⟩
  unfold dropTrailWhile
  rw [← List.reverse_append, List.takeWhile_append_dropWhile, List.reverse_reverse]

theorem dropTrailWhile_idem (p : Char → Bool) (l : List Char) :
    dropTrailWhile p (dropTrailWhile p l) = dropTrailWhile p l := by
  unfold dropTrailWhile
  rw [List.reverse_reverse, dropWhile_idem]

theorem pyStripList_exists (l : List Char) :
    ∃ a b, l = a ++ pyStripList l ++ b := by
  obtain ⟨b, hb⟩ := dropTrailWhile_exists pyIsSpace (l.dropWhile pyIsSpace)
  refine ⟨l.takeWhile pyIsSpace, b, ?_⟩
  conv_lhs => rw [← List.takeWhile_append_dropWhile pyIsSpace l]
  rw [pyStripList, List.append_assoc, ← hb]

theorem dropWhile_pyStripList (l : List Char) :
    (pyStripList l).dropWhile pyIsSpace = pyStripList l := by
  obtain ⟨b, hb⟩ := dropTrailWhile_exists pyIsSpace (l.dropWhile pyIsSpace)
  cases hd : pyStripList l with
  | nil => rfl
  | cons c t =>
    have hd2 : dropTrailWhile pyIsSpace (l.dropWhile pyIsSpace) = c :: t := hd
    have hhead : l.dropWhile pyIsSpace = c :: (t ++ b) := by
      rw [hb, hd2]; rfl
    have hc : pyIsSpace c = false := dropWhile_head_false _ _ _ _ hhead
    rw [List.dropWhile_cons, if_neg (by simp [hc])]

theorem pyStripList_idem (l : List Char) :
    pyStripList (pyStripList l) = pyStripList l := by
  calc pyStripList (pyStripList l)
      = dropTrailWhile pyIsSpace ((pyStripList l).dropWhile pyIsSpace) := rfl
    _ = dropTrailWhile pyIsSpace (pyStripList l) := by rw [dropWhile_pyStripList]
    _ = pyStripList l := dropTrailWhile_idem pyIsSpace (l.dropWhile pyIsSpace)

theorem pyStripList_dropWhile (l : List Char) :
    pyStripList (l.dropWhile pyIsSpace) = pyStripList l := by
  show dropTrailWhile pyIsSpace ((l.dropWhile pyIsSpace).dropWhile pyIsSpace) = _
  rw [dropWhile_idem]
  rfl

theorem hasTriple_of_infix (a m b : List Char) (h : hasTriple m = true) :
    hasTriple (a ++ m ++ b) = true := by
  obtain ⟨x, y, hxy⟩ := hasTriple_decomp m h
  rw [hxy]
  have h2 := hasTriple_append_bt3 (a ++ x) (y ++ b)
  rw [show a ++ (x ++ bt3 ++ y) ++ b = a ++ x ++ bt3 ++ (y ++ b) by simp [List.append_assoc]]
  exact h2

theorem findFirstBlock_strip_none (l : List Char) (h : findFirstBlock l = none) :
    findFirstBlock (pyStripList l) = none := by
  cases hf : findFirstBlock (pyStripList l) with
  | none => rfl
  | some body =>
    exfalso
    obtain ⟨x, y, z, hdec⟩ := findFirstBlock_decomp _ body hf
    obtain ⟨a, b, hab⟩ := pyStripList_exists l
    have hsome : (findFirstBlock l).isSome = true := by
      rw [hab, hdec]
      have h2 := findFirstBlock_isSome (a ++ x) y (z ++ b)
      rw [show a ++ (x ++ bt3 ++ y ++ bt3 ++ z) ++ b = a ++ x ++ bt3 ++ y ++ bt3 ++ (z ++ b) by
        simp [List.append_assoc]]
      exact h2
    rw [h] at hsome
    exact absurd hsome (by simp)

theorem extract_eq_some (s : String) (body : List Char)
    (h : findFirstBlock s.data = some body) :
    extract_json_from_markdown s = pyStrip ⟨body⟩ := by
  unfold extract_json_from_markdown
  rw [h]

theorem extract_eq_none (s : String) (h : findFirstBlock s.data = none) :
    extract_json_from_markdown s = pyStrip s := by
  unfold extract_json_from_markdown
  rw [h]

theorem extract_json_idem (s : String) :
    extract_json_from_markdown (extract_json_from_markdown s) = extract_json_from_markdown s := by
  cases hf : findFirstBlock s.data with
  | some body =>
    rw [extract_eq_some s body hf]
    have hnb : hasTriple body = false := findFirstBlock_body _ body hf
    have hns : hasTriple (pyStripList body) = false := by
      cases hh : hasTriple (pyStripList body)
      · rfl
      · exfalso
        obtain ⟨a, b, hab⟩ := pyStripList_exists body
        have h2 := hasTriple_of_infix a (pyStripList body) b hh
        rw [← hab] at h2
        rw [h2] at hnb
        exact absurd hnb (by decide)
    have hnone : findFirstBlock (pyStrip ⟨body⟩).data = none := findFirstBlock_none _ hns
    rw [extract_eq_none _ hnone]
    show String.mk (pyStripList (pyStripList body)) = String.mk (pyStripList body)
    rw [pyStripList_idem]
  | none =>
    rw [extract_eq_none s hf]
    have hnone : findFirstBlock (pyStrip s).data = none := findFirstBlock_strip_none _ hf
    rw [extract_eq_none _ hnone]
    show String.mk (pyStripList (pyStripList s.data)) = String.mk (pyStripList s.data)
    rw [pyStripList_idem]

/-! ## Lemma library for the single-block characterisation (C7) -/

theorem dropWhile_append_cons (p : Char → Bool) (xs : List Char) (c : Char) (ys : List Char)
    (hc : p c = false) :
    (xs ++ c :: ys).dropWhile p = xs.dropWhile p ++ c :: ys := by
  induction xs with
  | nil => simp [List.dropWhile_cons, hc]
  | cons a rest ih =>
    rw [List.cons_append, List.dropWhile_cons, List.dropWhile_cons]
    by_cases ha : p a
    · rw [if_pos ha, if_pos ha]; exact ih
    · rw [if_neg ha, if_neg ha, List.cons_append]

theorem findFirstBlock_skip (pre l : List Char) (hp : '\x60' ∉ pre) :
    findFirstBlock (pre ++ l) = findFirstBlock l := by
  induction pre with
  | nil => rfl
  | cons c rest ih =>
    have hc : c ≠ '\x60' := fun hh => hp (hh ▸ List.mem_cons_self c rest)
    rw [List.cons_append, findFirstBlock_cons c _ (fun r2 hcc _ => hc hcc)]
    exact ih (fun hm => hp (List.mem_cons_of_mem c hm))

theorem dropJsonTag_noop (l : List Char)
    (h : ∀ r, l ≠ 'j' :: 's' :: 'o' :: 'n' :: r) : dropJsonTag l = l := by
  rw [dropJsonTag.eq_def]
  split
  · next rest => exact absurd rfl (h rest)
  · rfl

theorem no_json_lead (mid post : List Char) (hmid : '\x60' ∉ mid)
    (htake : mid.take 4 ≠ ['j', 's', 'o', 'n']) :
    ∀ r, mid ++ bt3 ++ post ≠ 'j' :: 's' :: 'o' :: 'n' :: r := by
  intro r heq
  rcases mid with _ | ⟨a, _ | ⟨b, _ | ⟨c, _ | ⟨d, m⟩⟩⟩⟩
  · simp [bt3] at heq
  · simp [bt3] at heq
  · simp [bt3] at heq
  · simp [bt3] at heq
  · simp [bt3] at heq
    exact htake (by simp [heq.1, heq.2.1, heq.2.2.1, heq.2.2.2.1])

theorem bt_not_mem_dropWhile (mid : List Char) (hmid : '\x60' ∉ mid) :
    '\x60' ∉ mid.dropWhile pyIsSpace :=
  fun hm => hmid ((List.dropWhile_sublist pyIsSpace).subset hm)

/-- The characterisation of a single fenced block: malformed text of the
shape `pre + fence + tag + mid + fence + post` with the fences unambiguous
(no backticks in `pre` or `mid`) extracts to the stripped interior `mid`. -/
theorem extract_block (pre tag mid post : List Char)
    (hpre : '\x60' ∉ pre) (hmid : '\x60' ∉ mid)
    (htag : tag = [] ∨ tag = ['j', 's', 'o', 'n'])
    (hjson : tag = [] → mid.take 4 ≠ ['j', 's', 'o', 'n']) :
    extract_json_from_markdown ⟨pre ++ bt3 ++ tag ++ mid ++ bt3 ++ post⟩ = pyStrip ⟨mid⟩ := by
  have hdj : dropJsonTag (tag ++ mid ++ bt3 ++ post) = mid ++ bt3 ++ post := by
    rcases htag with h0 | h4
    · rw [h0, List.nil_append]
      exact dropJsonTag_noop _ (by
        have h5 := no_json_lead mid post hmid (hjson h0)
        simpa [List.append_assoc] using h5)
    · rw [h4]
      rfl
  have hdw : (mid ++ bt3 ++ post).dropWhile pyIsSpace =
      mid.dropWhile pyIsSpace ++ bt3 ++ post := by
    rw [show mid ++ bt3 ++ post = mid ++ '\x60' :: ('\x60' :: '\x60' :: post) by
      simp [bt3, List.append_assoc]]
    rw [dropWhile_append_cons pyIsSpace mid '\x60' _ (by decide)]
    simp [bt3, List.append_assoc]
  have hsp : splitAtFence (mid.dropWhile pyIsSpace ++ bt3 ++ post) =
      some (mid.dropWhile pyIsSpace, post) :=
    splitAtFence_append _ _ (bt_not_mem_dropWhile mid hmid)
  have hffb : findFirstBlock (pre ++ bt3 ++ tag ++ mid ++ bt3 ++ post) =
      some (mid.dropWhile pyIsSpace) := by
    rw [show pre ++ bt3 ++ tag ++ mid ++ bt3 ++ post =
        pre ++ ('\x60' :: '\x60' :: '\x60' :: (tag ++ mid ++ bt3 ++ post)) by
      simp [bt3, List.append_assoc]]
    rw [findFirstBlock_skip pre _ hpre, findFirstBlock_fence, hdj, hdw, hsp]
  have hdata : (String.mk (pre ++ bt3 ++ tag ++ mid ++ bt3 ++ post)).data =
      pre ++ bt3 ++ tag ++ mid ++ bt3 ++ post := rfl
  rw [extract_eq_some _ _ (by rw [hdata]; exact hffb)]
  show String.mk (pyStripList (mid.dropWhile pyIsSpace)) = String.mk (pyStripList mid)
  rw [pyStripList_dropWhile]

/-! ## Concrete sample inputs shared by the claim theorems -/

def stateIdle : AppState := ⟨false, ⟨.good [], false⟩⟩

def stateBusy : AppState := ⟨true, ⟨.good [], false⟩⟩

def envFail : PipelineEnv :=
  { execId := "exec-1", startTime := "t0", endTime := "t1", nowFmt := "d",
    fetch := .error "boom",
    agent1 := .error "unused", agent2 := .error "unused", agent3 := .error "unused",
    agent4 := .error "unused", send := fun _ => true }

def agent1Sample : Agent1Output := ⟨[], "t"⟩

def agent2Sample : Agent2Output := ⟨[], 0⟩

def topIdeaSample (r : Int) (t : String) : TopIdea :=
  ⟨r, t, "https://example.com/a", 8, "strong impact", "prototype it"⟩

def agent3Sample : Agent3Output :=
  ⟨[topIdeaSample 1 "A", topIdeaSample 2 "B", topIdeaSample 3 "C", topIdeaSample 4 "D",
    topIdeaSample 5 "E"], "solid set"⟩

def explainedSample (r : Int) (t : String) : ExplainedIdea :=
  ⟨r, t, "sharh dyal l7aja", "https://example.com/s"⟩

def agent4Sorted : Agent4Output :=
  ⟨[explainedSample 1 "T1", explainedSample 2 "T2", explainedSample 3 "T3",
    explainedSample 4 "T4", explainedSample 5 "T5"]⟩

def envOk : PipelineEnv :=
  { execId := "exec-2", startTime := "t0", endTime := "t1", nowFmt := "d",
    fetch := .ok 7,
    agent1 := .ok agent1Sample, agent2 := .ok agent2Sample, agent3 := .ok agent3Sample,
    agent4 := .ok agent4Sorted, send := fun _ => true }

def execSample : PipelineExecution :=
  { execution_id := "e", started_at := "t", status := "completed" }

/-! ## The claims -/

/-- C1, counterexample: the claim says a failing step makes the accepted
invocation return a failed `PipelineRun` and never raise past the
orchestrator.  At the concrete accepted invocation `envFail` (fetch raises
"boom") the orchestrator instead re-raises: its outcome is the exception
`.error "boom"`, not a returned record. -/
theorem C1_counterexample :
    stateIdle.pipeline_running = false ∧
    (run_full_pipeline envFail stateIdle).result = Except.error "boom" ∧
    (run_full_pipeline envFail stateIdle).result.toOption = none :=
  ⟨rfl, rfl, rfl⟩

/-- C1, amended: when a step of an accepted invocation fails with message
`e`, the orchestrator marks the run record status=failed carrying `e`,
persists that record through the finally-clause save, but re-raises the
exception to its caller (the result is `.error e`, which the /trigger
endpoint maps to an HTTP 500). -/
theorem C1_failed_run_recorded_but_reraised (env : PipelineEnv) (s : AppState) (e : String)
    (hidle : s.pipeline_running = false)
    (hfail : (pipeline_body env).result = Except.error e) :
    (pipeline_body env).record.status = "failed" ∧
    (pipeline_body env).record.error_message = some e ∧
    (run_full_pipeline env s).result = Except.error e ∧
    (run_full_pipeline env s).state.fs = run_save (pipeline_body env).record s.fs := by
  rcases env with ⟨execId, st, et, nf, fetch, a1, a2, a3, a4, send⟩
  rcases fetch with e0 | n <;>
    rcases a1 with e1 | v1 <;>
      rcases a2 with e2 | v2 <;>
        rcases a3 with e3 | v3 <;>
          rcases a4 with e4 | v4 <;>
            simp_all [pipeline_body, failBody, run_full_pipeline]

/-- C1, witness: the amended theorem at the concrete failing invocation. -/
theorem C1_witness :
    (pipeline_body envFail).record.status = "failed" ∧
    (pipeline_body envFail).record.error_message = some "boom" ∧
    (run_full_pipeline envFail stateIdle).result = Except.error "boom" ∧
    (run_full_pipeline envFail stateIdle).state.fs =
      run_save (pipeline_body envFail).record stateIdle.fs :=
  C1_failed_run_recorded_but_reraised envFail stateIdle "boom" rfl rfl

/-- C2: an invocation of `run_full_pipeline` made while the single-flight
flag is set fails immediately with the busy error, and leaves the state
(including the persisted history) untouched — no new `PipelineRun` is
constructed or appended. -/
theorem C2_busy_rejection (env : PipelineEnv) (s : AppState) (h : s.pipeline_running = true) :
    run_full_pipeline env s = ⟨.error "Pipeline is already running", s, none⟩ := by
  simp [run_full_pipeline, h]

/-- C2, witness: the busy rejection at a concrete busy state. -/
theorem C2_witness :
    run_full_pipeline envFail stateBusy =
      ⟨.error "Pipeline is already running", stateBusy, none⟩ :=
  C2_busy_rejection envFail stateBusy rfl

/-- C3: for every accepted invocation — success or failure of any step —
the finally clause clears the single-flight flag, and the terminal record
of the run is appended to the history exactly once (the new history file is
the old list plus that one record, trimmed to the last 50). -/
theorem C3_cleanup_and_single_append (env : PipelineEnv) (s : AppState)
    (l : List PipelineExecution)
    (hidle : s.pipeline_running = false) (hfs : s.fs = ⟨.good l, false⟩) :
    (run_full_pipeline env s).state.pipeline_running = false ∧
    (run_full_pipeline env s).state.fs =
      ⟨.good (pyLastN 50 (l ++ [(pipeline_body env).record])), false⟩ := by
  constructor
  · simp [run_full_pipeline, hidle]
  · simp [run_full_pipeline, hidle, hfs, run_save, save_execution_history, save_inner]

/-- C3, witness: cleanup and single append at a concrete successful run. -/
theorem C3_witness :
    (run_full_pipeline envOk stateIdle).state.pipeline_running = false ∧
    (run_full_pipeline envOk stateIdle).state.fs =
      ⟨.good (pyLastN 50 ([] ++ [(pipeline_body envOk).record])), false⟩ :=
  C3_cleanup_and_single_append envOk stateIdle [] rfl rfl

/-- C4: with `MAX_RETRIES = 3`, a backend that raises on attempts 1 and 2
and succeeds on attempt 3 makes `call_gemini` return the attempt-3 text
after sleeping 2^0 + 2^1 = 1 + 2 = 3 seconds of backoff (so at least 3);
and a backend that raises on all three attempts makes it fail with an error
carrying the last underlying error, again after 1 + 2 seconds of backoff. -/
theorem C4_retry_backoff_and_exhaustion (fmt : String)
    (backend backend2 : Nat → Except String String) (t e0 e1 f0 f1 f2 : String)
    (h0 : backend 0 = .error e0) (h1 : backend 1 = .error e1) (h2 : backend 2 = .ok t)
    (hok : fmt ≠ "json" ∨ json_valid t = true)
    (g0 : backend2 0 = .error f0) (g1 : backend2 1 = .error f1) (g2 : backend2 2 = .error f2) :
    call_gemini fmt backend MAX_RETRIES = ⟨.ok t, 1 + 2, 3⟩ ∧
    call_gemini fmt backend2 MAX_RETRIES =
      ⟨.error ("Gemini API call failed after 3 attempts: " ++ f2), 1 + 2, 3⟩ := by
  constructor
  · rcases hok with hfmt | hv
    · simp [call_gemini, MAX_RETRIES, call_gemini_go, h0, h1, h2, hfmt]
    · simp [call_gemini, MAX_RETRIES, call_gemini_go, h0, h1, h2, hv]
  · simp [call_gemini, MAX_RETRIES, call_gemini_go, g0, g1, g2, gemini_fail_msg]
    congr 1

def cbFail2Ok : Nat → Except String String := fun n =>
  match n with
  | 0 => .error "ConnectionError"
  | 1 => .error "quota exceeded"
  | _ => .ok "\x7b\x22x\x22: 1\x7d"

def cbFail3 : Nat → Except String String := fun n =>
  match n with
  | 0 => .error "err0"
  | 1 => .error "err1"
  | _ => .error "err2"

/-- C4, witness: the retry scenario at two concrete backends. -/
theorem C4_witness :
    call_gemini "json" cbFail2Ok MAX_RETRIES = ⟨.ok "\x7b\x22x\x22: 1\x7d", 1 + 2, 3⟩ ∧
    call_gemini "json" cbFail3 MAX_RETRIES =
      ⟨.error ("Gemini API call failed after 3 attempts: " ++ "err2"), 1 + 2, 3⟩ :=
  C4_retry_backoff_and_exhaustion "json" cbFail2Ok cbFail3 "\x7b\x22x\x22: 1\x7d"
    "ConnectionError" "quota exceeded" "err0" "err1" "err2" rfl rfl rfl
    (Or.inr (by decide)) rfl rfl rfl

def agent3Four : Agent3Output :=
  ⟨[topIdeaSample 1 "A", topIdeaSample 2 "B", topIdeaSample 3 "C", topIdeaSample 4 "D"],
   "only four made the cut"⟩

def agent4Four : Agent4Output :=
  ⟨[explainedSample 1 "A", explainedSample 2 "B", explainedSample 3 "C", explainedSample 4 "D"]⟩

def envFourIdeas : PipelineEnv :=
  { execId := "exec-3", startTime := "t0", endTime := "t1", nowFmt := "d",
    fetch := .ok 7,
    agent1 := .ok agent1Sample, agent2 := .ok agent2Sample,
    agent3 := agent3_validate agent3Four,
    agent4 := .ok agent4Four, send := fun _ => true }

/-- C5, counterexample: the claim says a stage-3 output with 4 ideas instead
of 5 is rejected by validation and the run records status=failed with a
count-mismatch error.  In fact the 4-entry output `agent3Four` passes
validation (`models.py` has no length constraint and `validate_and_reflect`
performs no count check), and the concrete run that receives it completes
with status=completed and no error. -/
theorem C5_counterexample :
    agent3Four.top_5_ideas.length = 4 ∧
    agent3_validate agent3Four = Except.ok agent3Four ∧
    (run_full_pipeline envFourIdeas stateIdle).result =
      Except.ok (pipeline_body envFourIdeas).record ∧
    (pipeline_body envFourIdeas).record.status = "completed" ∧
    (pipeline_body envFourIdeas).record.error_message = none :=
  ⟨rfl, by decide, rfl, rfl, rfl⟩

/-- C5, amended: stage-3 validation checks only the per-entry field
constraints (rank in 1..5, scores in 0..10); it does NOT validate the
length of `top_5_ideas`, so an output with other than 5 entries (such as 4)
is accepted and the pipeline proceeds — no count-mismatch failure is ever
recorded. -/
theorem C5_no_count_validation (o : Agent3Output)
    (h : o.top_5_ideas.all TopIdea.valid = true) :
    agent3_validate o = Except.ok o := by
  simp [agent3_validate, Agent3Output.valid, h]

/-- C5, witness: the amended theorem at the concrete 4-entry output. -/
theorem C5_witness : agent3_validate agent3Four = Except.ok agent3Four :=
  C5_no_count_validation agent3Four (by decide)

def cbInvalidThenValid : Nat → Except String String := fun n =>
  match n with
  | 0 => .ok "not json"
  | _ => .ok "\x7b\x7d"

/-- C6, counterexample: the claim says a successful backend call makes
`call_gemini` return the raw text with no JSON validation and no
re-invocation.  With `response_format = "json"` and a backend whose first
call succeeds with the unparseable text "not json", the invoker re-invokes
the backend (2 calls, with 1 second of backoff) and returns the attempt-2
text instead of the raw attempt-1 text. -/
theorem C6_counterexample :
    cbInvalidThenValid 0 = Except.ok "not json" ∧
    call_gemini "json" cbInvalidThenValid MAX_RETRIES = ⟨Except.ok "\x7b\x7d", 1, 2⟩ :=
  ⟨rfl, by decide⟩

/-- C6, amended: for `response_format` other than "json" a successful first
backend call returns the raw text with one call and no sleep; for "json"
the invoker validates the text as JSON — returning it raw when valid,
returning the markdown-extracted text when only that is valid, and, when
both are invalid, re-invoking the backend on non-final attempts (returning
the extracted text as-is on the final attempt). -/
theorem C6_json_validation_and_retry (fmt : String) (backend : Nat → Except String String)
    (t : String) (m : Nat) (hm : 0 < m) (h0 : backend 0 = .ok t) :
    (fmt ≠ "json" → call_gemini fmt backend m = ⟨.ok t, 0, 1⟩) ∧
    (json_valid t = true → call_gemini fmt backend m = ⟨.ok t, 0, 1⟩) ∧
    (fmt = "json" → json_valid t = false →
      json_valid (extract_json_from_markdown t) = true →
      call_gemini fmt backend m = ⟨.ok (extract_json_from_markdown t), 0, 1⟩) ∧
    (fmt = "json" → json_valid t = false →
      json_valid (extract_json_from_markdown t) = false → m = 1 →
      call_gemini fmt backend m = ⟨.ok (extract_json_from_markdown t), 0, 1⟩) := by
  obtain ⟨m2, rfl⟩ : ∃ m2, m = m2 + 1 := ⟨m - 1, by omega⟩
  refine ⟨?_, ?_, ?_, ?_⟩
  · intro hfmt
    simp [call_gemini, call_gemini_go, h0, hfmt]
  · intro hv
    by_cases hfmt : fmt = "json" <;>
      simp [call_gemini, call_gemini_go, h0, hfmt, hv]
  · intro hfmt hv hv2
    simp [call_gemini, call_gemini_go, h0, hfmt, hv, hv2]
  · intro hfmt hv hv2 hm1
    have hz : m2 = 0 := by omega
    subst hz
    simp [call_gemini, call_gemini_go, h0, hfmt, hv, hv2]

def fencedText : String := "\x60\x60\x60json\n\x7b\x7d\n\x60\x60\x60"

def cbFenced : Nat → Except String String := fun _ => .ok fencedText

/-- C6, witness: the amended theorem at a concrete fenced response — json
mode extracts the fenced payload, text mode returns the raw text. -/
theorem C6_witness :
    call_gemini "json" cbFenced MAX_RETRIES = ⟨.ok "\x7b\x7d", 0, 1⟩ ∧
    call_gemini "text" cbFenced MAX_RETRIES = ⟨.ok fencedText, 0, 1⟩ := by
  constructor
  · have h := (C6_json_validation_and_retry "json" cbFenced fencedText MAX_RETRIES
      (by decide) rfl).2.2.1 rfl (by decide) (by decide)
    rw [h]
    decide
  · exact (C6_json_validation_and_retry "text" cbFenced fencedText MAX_RETRIES
      (by decide) rfl).1 (by decide)

/-- C7, counterexample: the claim says `extractJson` is the identity on
every already-valid JSON text.  The valid JSON document " \x7b\x7d" (with a
leading space) is a counterexample: the extractor strips it to "\x7b\x7d",
which differs from the input. -/
theorem C7_counterexample :
    json_valid " \x7b\x7d" = true ∧
    extract_json_from_markdown " \x7b\x7d" ≠ " \x7b\x7d" :=
  ⟨by decide, by decide⟩

/-- C7, amended: for malformed JSON containing exactly one fenced code block
(three backticks, optionally tagged json, with unambiguous fences — no
backtick in the text before the block or inside it, and no further fence
after it) the extractor returns the trimmed interior of the block; and for
already-valid JSON containing no three-backtick run it returns the input
stripped of leading and trailing whitespace (the identity exactly when the
input carries no such whitespace). -/
theorem C7_extract_block_and_strip :
    (∀ pre tag mid post : List Char,
      json_valid ⟨pre ++ bt3 ++ tag ++ mid ++ bt3 ++ post⟩ = false →
      hasTriple post = false →
      '\x60' ∉ pre → '\x60' ∉ mid →
      (tag = [] ∨ tag = ['j', 's', 'o', 'n']) →
      (tag = [] → mid.take 4 ≠ ['j', 's', 'o', 'n']) →
      extract_json_from_markdown ⟨pre ++ bt3 ++ tag ++ mid ++ bt3 ++ post⟩ = pyStrip ⟨mid⟩) ∧
    (∀ s : String, json_valid s = true → hasTriple s.data = false →
      extract_json_from_markdown s = pyStrip s) := by
  constructor
  · intro pre tag mid post _ _ hpre hmid htag hjson
    exact extract_block pre tag mid post hpre hmid htag hjson
  · intro s _ ht
    exact extract_eq_none s (findFirstBlock_none _ ht)

/-- C7, witness: the amended theorem at a concrete markdown-wrapped response
and at a concrete fence-free valid JSON document. -/
theorem C7_witness :
    extract_json_from_markdown "Sure! \x60\x60\x60json\n\x7b\x22a\x22: 1\x7d\n\x60\x60\x60 ok" =
      "\x7b\x22a\x22: 1\x7d" ∧
    extract_json_from_markdown "\x7b\x22a\x22: 1\x7d" = "\x7b\x22a\x22: 1\x7d" := by
  constructor
  · have h := C7_extract_block_and_strip.1 "Sure! ".data ['j', 's', 'o', 'n']
      "\n\x7b\x22a\x22: 1\x7d\n".data " ok".data
      (by decide) (by decide) (by decide) (by decide) (Or.inr rfl)
      (by intro hh; exact absurd hh (by decide))
    have hs : (⟨"Sure! ".data ++ bt3 ++ ['j', 's', 'o', 'n'] ++
        "\n\x7b\x22a\x22: 1\x7d\n".data ++ bt3 ++ " ok".data⟩ : String) =
        "Sure! \x60\x60\x60json\n\x7b\x22a\x22: 1\x7d\n\x60\x60\x60 ok" := by decide
    have hm : pyStrip ⟨"\n\x7b\x22a\x22: 1\x7d\n".data⟩ = "\x7b\x22a\x22: 1\x7d" := by decide
    rw [hs, hm] at h
    exact h
  · have h := C7_extract_block_and_strip.2 "\x7b\x22a\x22: 1\x7d" (by decide) (by decide)
    rw [h]
    decide

/-- C8: the markdown JSON extractor is idempotent — extracting from an
already-extracted text returns it unchanged, for every input string. -/
theorem C8_extractJson_idempotent (s : String) :
    extract_json_from_markdown (extract_json_from_markdown s) = extract_json_from_markdown s :=
  extract_json_idem s

/-- Modelled from the words of the spec, for comparison in C9: the message
with the five entries arranged by ascending rank 1..5 (each rank bucket in
list order). -/
def rankOrderedMessage (nowFmt : String) (o : Agent4Output) : String :=
  format_telegram_message nowFmt
    ⟨(o.top_5_explained.filter fun e => e.rank == 1) ++
     (o.top_5_explained.filter fun e => e.rank == 2) ++
     (o.top_5_explained.filter fun e => e.rank == 3) ++
     (o.top_5_explained.filter fun e => e.rank == 4) ++
     (o.top_5_explained.filter fun e => e.rank == 5)⟩

def agent4Perm : Agent4Output :=
  ⟨[explainedSample 2 "T2", explainedSample 1 "T1", explainedSample 3 "T3",
    explainedSample 4 "T4", explainedSample 5 "T5"]⟩

/-- C9, counterexample: the claim says every valid 5-entry stage-4 output is
formatted in rank order 1..5.  The valid 5-entry output `agent4Perm`, whose
list carries ranks in the order 2,1,3,4,5, is formatted in list order, which
differs from the rank-ordered message. -/
theorem C9_counterexample :
    agent4Perm.top_5_explained.length = 5 ∧
    Agent4Output.valid agent4Perm = true ∧
    format_telegram_message "01/01/2026 à 09:00" agent4Perm ≠
      rankOrderedMessage "01/01/2026 à 09:00" agent4Perm :=
  ⟨rfl, by decide, by decide⟩

/-- C9, amended: the formatted message consists of the header, the block of
each of the five entries in LIST order (title, explanation and source link
of every entry all present), and the footer; in particular, when the list
carries the ranks as 1,2,3,4,5 in order, the message lists the five entries
in rank order 1..5. -/
theorem C9_message_in_list_order (nowFmt : String) (o : Agent4Output)
    (e1 e2 e3 e4 e5 : ExplainedIdea)
    (hl : o.top_5_explained = [e1, e2, e3, e4, e5]) :
    format_telegram_message nowFmt o =
      String.intercalate "\n"
        (telegramHeader ++ (ideaBlock e1 ++ ideaBlock e2 ++ ideaBlock e3 ++ ideaBlock e4 ++
          ideaBlock e5) ++ telegramFooter nowFmt) ∧
    (e1.rank = 1 → e2.rank = 2 → e3.rank = 3 → e4.rank = 4 → e5.rank = 5 →
      format_telegram_message nowFmt o = rankOrderedMessage nowFmt o) := by
  constructor
  · rw [format_telegram_message, hl]
    simp [List.append_assoc]
  · intro h1 h2 h3 h4 h5
    rw [rankOrderedMessage, hl]
    simp [h1, h2, h3, h4, h5, format_telegram_message, hl]

/-- C9, witness: the amended theorem at the concrete rank-sorted output. -/
theorem C9_witness :
    format_telegram_message "d" agent4Sorted = rankOrderedMessage "d" agent4Sorted :=
  (C9_message_in_list_order "d" agent4Sorted _ _ _ _ _ rfl).2 rfl rfl rfl rfl rfl

/-- C10: `save_execution_history` never raises — for every record and every
history-file state (missing, corrupt, readable, write failure) it returns
normally; and when the body fails (corrupt file or write failure) the
exception is swallowed and the file state is returned unchanged, silently
dropping the record. -/
theorem C10_save_never_raises (execution : PipelineExecution) (fs : FsEnv) :
    (∃ fs2, save_execution_history execution fs = Except.ok fs2) ∧
    (fs.file = HistFile.corrupt ∨ fs.writeFails = true →
      save_execution_history execution fs = Except.ok fs) := by
  rcases fs with ⟨file, wf⟩
  cases file <;> cases wf <;>
    simp [save_execution_history, save_inner]

/-- C10, witness: the save call at a concrete record and a corrupt history
file returns normally with the file unchanged. -/
theorem C10_witness :
    save_execution_history execSample ⟨HistFile.corrupt, false⟩ =
      Except.ok ⟨HistFile.corrupt, false⟩ :=
  (C10_save_never_raises execSample ⟨HistFile.corrupt, false⟩).2 (Or.inl rfl)
